import Mathlib

/-!
Verification development for the Polygon.io data-collection script
(`polygonScript.py`).  The script fetches market data from a vendor API and
persists it into eight SQLite tables.  We give a shallow embedding: each table
is a list of typed rows, SQLite `INSERT OR REPLACE` / `INSERT OR IGNORE`
become explicit list operations keyed by the tables' declared primary keys,
and each `collect_X` method becomes a total function from the database state
and the (possibly failing) API response to the new database state.  An
exception raised while fetching or decoding a response is modelled by the
`Except.error` case of the response argument; the Python `try`/`except`
blocks that log and swallow such exceptions correspond to the branches that
return the state unchanged.
-/

namespace Polygon

/-! ### SQLite write semantics

`INSERT OR REPLACE` deletes any row whose primary key conflicts with the new
row's key, then appends the new row; `executemany` folds this over the
supplied rows in order.  `INSERT OR IGNORE` (used only for `news`) drops the
new row when its primary key conflicts with an existing row.  In SQLite a
NULL primary-key value never conflicts with anything (NULLs are pairwise
distinct for uniqueness), so for the tables whose key includes a nullable
column (`snapshots` and `technical_indicators` via their `timestamp`, and
`news` via its `id`) the conflict test is an explicit relation that returns
false whenever the nullable component is NULL; for the tables whose key
columns are always supplied (`aggregates`, `tickers`, `dividends`,
`stock_splits`, `market_holidays`) it is plain key equality. -/

def upsert {ρ κ : Type} [DecidableEq κ] (key : ρ → κ) (t : List ρ) (r : ρ) : List ρ :=
  t.filter (fun x => decide (key x ≠ key r)) ++ [r]

def upsertAll {ρ κ : Type} [DecidableEq κ] (key : ρ → κ) (t : List ρ) (rs : List ρ) : List ρ :=
  rs.foldl (upsert key) t

/-- `INSERT OR REPLACE` under an explicit conflict relation: delete the rows
in conflict with the incoming row, then append it. -/
def upsertC {ρ : Type} (conflict : ρ → ρ → Bool) (t : List ρ) (r : ρ) : List ρ :=
  t.filter (fun x => !(conflict x r)) ++ [r]

def upsertAllC {ρ : Type} (conflict : ρ → ρ → Bool) (t : List ρ) (rs : List ρ) : List ρ :=
  rs.foldl (upsertC conflict) t

/-- `hits key rs x` : some record in `rs` has the same key as `x`. -/
def hits {ρ κ : Type} [DecidableEq κ] (key : ρ → κ) (rs : List ρ) (x : ρ) : Bool :=
  rs.any (fun r => decide (key x = key r))

/-! ### Row types (one per table, fields as in `init_database`)

Nullable columns — those filled from optional API fields (`getattr(_, _,
None)` / `dict.get`) — are `Option`-typed.  REAL columns are modelled by `ℚ`,
INTEGER by `Int`, TEXT/DATE/TIMESTAMP by `String`. -/

structure AggRow where
  ticker : String
  timestamp : Int
  open_ : ℚ
  high : ℚ
  low : ℚ
  close : ℚ
  volume : Int
  vwap : Option ℚ
  timespan : String
  multiplier : Int
  transactions : Option Int
  deriving DecidableEq, Repr

structure SnapshotRow where
  ticker : String
  timestamp : Option Int
  open_ : Option ℚ
  high : Option ℚ
  low : Option ℚ
  close : Option ℚ
  volume : Option Int
  prev_close : Option ℚ
  change : Option ℚ
  change_percent : Option ℚ
  updated_at : ℚ
  deriving DecidableEq, Repr

structure IndicatorRow where
  ticker : String
  timestamp : Option Int
  indicator_type : String
  value : Option ℚ
  signal_value : Option ℚ
  histogram_value : Option ℚ
  deriving DecidableEq, Repr

structure TickerRow where
  ticker : String
  name : String
  market : String
  locale : String
  primary_exchange : String
  type : String
  active : Bool
  currency_name : String
  cik : Option String
  composite_figi : Option String
  share_class_figi : Option String
  last_updated_utc : Option String
  deriving DecidableEq, Repr

structure NewsRow where
  id : Option String
  ticker : Option String
  title : Option String
  author : Option String
  published_utc : Option String
  article_url : Option String
  amp_url : Option String
  image_url : Option String
  description : Option String
  keywords : String
  deriving DecidableEq, Repr

structure DividendRow where
  ticker : String
  ex_dividend_date : String
  payment_date : String
  record_date : String
  declared_date : Option String
  amount : ℚ
  flag : Option String
  currency : String
  deriving DecidableEq, Repr

structure SplitRow where
  ticker : String
  execution_date : String
  split_from : ℚ
  split_to : ℚ
  deriving DecidableEq, Repr

structure HolidayRow where
  date : String
  name : String
  exchange : String
  status : String
  deriving DecidableEq, Repr

/-- The eight tables created by `init_database`. -/
structure DB where
  tickers : List TickerRow
  aggregates : List AggRow
  snapshots : List SnapshotRow
  technical_indicators : List IndicatorRow
  news : List NewsRow
  dividends : List DividendRow
  stock_splits : List SplitRow
  market_holidays : List HolidayRow
  deriving DecidableEq, Repr

/-- A fresh database: `init_database` creates empty tables. -/
def emptyDB : DB := ⟨[], [], [], [], [], [], [], []⟩

/-! ### Primary keys, as declared in `init_database` -/

def aggKey (r : AggRow) : String × Int × String × Int :=
  (r.ticker, r.timestamp, r.timespan, r.multiplier)

/-- The `snapshots` primary-key tuple `(ticker, timestamp)`.  Used to state
key uniqueness for rows whose nullable `timestamp` is present; it is *not*
the conflict test (a NULL timestamp never conflicts, see `snapConflict`). -/
def snapKey (r : SnapshotRow) : String × Option Int :=
  (r.ticker, r.timestamp)

/-- PK conflict for `snapshots`: both timestamps non-NULL and equal, and the
tickers equal.  A NULL `timestamp` never conflicts (SQLite uniqueness treats
NULLs as pairwise distinct). -/
def snapConflict (a b : SnapshotRow) : Bool :=
  decide (a.ticker = b.ticker) &&
    match a.timestamp, b.timestamp with
    | some i, some j => decide (i = j)
    | _, _ => false

/-- The `technical_indicators` primary-key tuple `(ticker, timestamp,
indicator_type)`.  Used to state key uniqueness for rows whose nullable
`timestamp` is present; it is *not* the conflict test (see `indConflict`). -/
def indKey (r : IndicatorRow) : String × Option Int × String :=
  (r.ticker, r.timestamp, r.indicator_type)

/-- PK conflict for `technical_indicators`: tickers and indicator types
equal, and both timestamps non-NULL and equal.  A NULL `timestamp` never
conflicts. -/
def indConflict (a b : IndicatorRow) : Bool :=
  decide (a.ticker = b.ticker) && decide (a.indicator_type = b.indicator_type) &&
    match a.timestamp, b.timestamp with
    | some i, some j => decide (i = j)
    | _, _ => false

def tickerKey (r : TickerRow) : String := r.ticker

def divKey (r : DividendRow) : String × String :=
  (r.ticker, r.ex_dividend_date)

def splitKey (r : SplitRow) : String × String :=
  (r.ticker, r.execution_date)

def holidayKey (r : HolidayRow) : String := r.date

/-- `news` PK conflict: both ids non-NULL and equal (NULL never conflicts). -/
def newsConflict (a b : NewsRow) : Bool :=
  match a.id, b.id with
  | some i, some j => decide (i = j)
  | _, _ => false

def insertIgnore (t : List NewsRow) (r : NewsRow) : List NewsRow :=
  if t.any (fun x => newsConflict x r) then t else t ++ [r]

def insertIgnoreAll (t : List NewsRow) (rs : List NewsRow) : List NewsRow :=
  rs.foldl insertIgnore t

/-! ### API response records

Each structure models one vendor-response object after Python attribute /
dict access: a field read through `getattr(_, _, None)` or `dict.get` is
`Option`-typed, a field read directly is plain. -/

/-- One bar yielded by `client.list_aggs` (`vwap` and `transactions` are read
with a `None` default). -/
structure Agg where
  timestamp : Int
  open_ : ℚ
  high : ℚ
  low : ℚ
  close : ℚ
  volume : Int
  vwap : Option ℚ
  transactions : Option Int
  deriving DecidableEq, Repr

/-- The per-day OHLCV sub-object of a snapshot (`ticker_data.day`); every
field is read with a `None` default. -/
structure DayBar where
  timestamp : Option Int
  open_ : Option ℚ
  high : Option ℚ
  low : Option ℚ
  close : Option ℚ
  volume : Option Int
  deriving DecidableEq, Repr

/-- The previous-day sub-object (`ticker_data.prev_day`); only `close` is
read, with a `None` default. -/
structure PrevDayBar where
  close : Option ℚ
  deriving DecidableEq, Repr

/-- One element of the `get_snapshot_all` response.  `day = none` models a
`ticker_data` lacking the `day` attribute (`hasattr` check), likewise
`prev_day`. -/
structure TickerSnapshot where
  ticker : String
  day : Option DayBar
  prev_day : Option PrevDayBar
  todays_change : Option ℚ
  todays_change_percent : Option ℚ
  deriving DecidableEq, Repr

/-- One element of `data['results']['values']` in an indicator response; all
fields are read via `dict.get`. -/
structure IndValue where
  timestamp : Option Int
  value : Option ℚ
  signal : Option ℚ
  histogram : Option ℚ
  deriving DecidableEq, Repr

/-- The decoded JSON body of an indicator response: `results` models
membership of the `'results'` key, `IndResults.values` membership of
`'values'`. -/
structure IndResults where
  values : Option (List IndValue)
  deriving DecidableEq, Repr

structure IndResponse where
  status_code : Nat
  results : Option IndResults
  deriving DecidableEq, Repr

/-- One article of a news response (`data.get('results', [])`); every scalar
field is read via `dict.get`, `tickers` and `keywords` default to `[]`. -/
structure Article where
  id : Option String
  tickers : List String
  title : Option String
  author : Option String
  published_utc : Option String
  article_url : Option String
  amp_url : Option String
  image_url : Option String
  description : Option String
  keywords : List String
  deriving DecidableEq, Repr

structure NewsResponse where
  status_code : Nat
  results : List Article
  deriving DecidableEq, Repr

/-- One record yielded by `client.list_dividends` (`declaration_date` and
`dividend_type` are read with a `None` default). -/
structure DividendRec where
  ticker : String
  ex_dividend_date : String
  payment_date : String
  record_date : String
  declaration_date : Option String
  cash_amount : ℚ
  dividend_type : Option String
  currency : String
  deriving DecidableEq, Repr

/-! For tickers, splits and holidays the mapping from response object to row
is a field-by-field copy, so the row types double as the record types. -/

/-! ### Record-to-row mappings (the dict built inside each collect loop) -/

def mkAggRow (ticker timespan : String) (multiplier : Int) (a : Agg) : AggRow :=
  { ticker := ticker, timestamp := a.timestamp, open_ := a.open_, high := a.high,
    low := a.low, close := a.close, volume := a.volume, vwap := a.vwap,
    timespan := timespan, multiplier := multiplier, transactions := a.transactions }

def mkSnapshotRow (now : ℚ) (td : TickerSnapshot) (d : DayBar) : SnapshotRow :=
  { ticker := td.ticker, timestamp := d.timestamp, open_ := d.open_, high := d.high,
    low := d.low, close := d.close, volume := d.volume,
    prev_close := td.prev_day.bind PrevDayBar.close,
    change := td.todays_change, change_percent := td.todays_change_percent,
    updated_at := now }

def mkIndicatorRow (ticker indicator_type : String) (v : IndValue) : IndicatorRow :=
  { ticker := ticker, timestamp := v.timestamp, indicator_type := indicator_type,
    value := v.value, signal_value := v.signal, histogram_value := v.histogram }

/-- `json.dumps` on a list of strings (escaping not modelled). -/
def json_dumps (l : List String) : String :=
  "[" ++ String.intercalate ", " (l.map (fun s => "\"" ++ s ++ "\"")) ++ "]"

def mkNewsRow (a : Article) : NewsRow :=
  { id := a.id, ticker := a.tickers.head?, title := a.title, author := a.author,
    published_utc := a.published_utc, article_url := a.article_url,
    amp_url := a.amp_url, image_url := a.image_url, description := a.description,
    keywords := json_dumps a.keywords }

def mkDividendRow (d : DividendRec) : DividendRow :=
  { ticker := d.ticker, ex_dividend_date := d.ex_dividend_date,
    payment_date := d.payment_date, record_date := d.record_date,
    declared_date := d.declaration_date, amount := d.cash_amount,
    flag := d.dividend_type, currency := d.currency }

/-! ### The `_save_X` methods (one `executemany` + commit each) -/

def _save_tickers (db : DB) (rows : List TickerRow) : DB :=
  { db with tickers := upsertAll tickerKey db.tickers rows }

def _save_aggregates (db : DB) (rows : List AggRow) : DB :=
  { db with aggregates := upsertAll aggKey db.aggregates rows }

def _save_snapshots (db : DB) (rows : List SnapshotRow) : DB :=
  { db with snapshots := upsertAllC snapConflict db.snapshots rows }

def _save_indicators (db : DB) (ticker indicator_type : String) (values : List IndValue) : DB :=
  { db with technical_indicators := upsertAllC indConflict db.technical_indicators (values.map (mkIndicatorRow ticker indicator_type)) }

def _save_news (db : DB) (rows : List NewsRow) : DB :=
  { db with news := insertIgnoreAll db.news rows }

def _save_dividends (db : DB) (rows : List DividendRow) : DB :=
  { db with dividends := upsertAll divKey db.dividends rows }

def _save_splits (db : DB) (rows : List SplitRow) : DB :=
  { db with stock_splits := upsertAll splitKey db.stock_splits rows }

def _save_holidays (db : DB) (rows : List HolidayRow) : DB :=
  { db with market_holidays := upsertAll holidayKey db.market_holidays rows }

/-! ### The `collect_X` operations

Each takes the fetched response as an explicit argument.  `Except.error`
models an exception raised while fetching/decoding (caught by the method's
`try`/`except`, which logs and returns).  The unused request parameters
(dates, limits) are kept to mirror the Python signatures. -/

/-- `collect_all_tickers`.  The method returns the accumulated `all_tickers`
list even when an exception interrupts the pagination loop (the `return` is
outside the `try`), in which case nothing is saved; `Except.error l` carries
the records mapped before the exception. -/
def collect_all_tickers (db : DB) (fetched : Except (List TickerRow) (List TickerRow)) : DB × List TickerRow :=
  match fetched with
  | .error collected => (db, collected)
  | .ok all_tickers => (_save_tickers db all_tickers, all_tickers)

/-- `collect_aggregates`: map each bar, then save when the list is nonempty
(`if aggs:`). -/
def collect_aggregates (db : DB) (ticker from_date to_date : String)
    (timespan : String) (multiplier : Int) (fetched : Except Unit (List Agg)) : DB :=
  match fetched with
  | .error _ => db
  | .ok bars =>
    let aggs := bars.map (mkAggRow ticker timespan multiplier)
    if aggs.isEmpty then db else _save_aggregates db aggs

/-- `collect_snapshots`.  The body runs only `if not tickers` (argument
`None` or an empty list); it keeps the response entries that have a `day`
attribute.  The second component records the vendor-client calls made
(`get_snapshot_all`). -/
def collect_snapshots (db : DB) (now : ℚ) (tickers : Option (List String))
    (fetched : Except Unit (List TickerSnapshot)) : DB × List String :=
  if (match tickers with | none => true | some l => l.isEmpty) then
    match fetched with
    | .error _ => (db, ["get_snapshot_all"])
    | .ok response =>
      let snapshots := response.filterMap (fun td => td.day.map (mkSnapshotRow now td))
      (if snapshots.isEmpty then db else _save_snapshots db snapshots, ["get_snapshot_all"])
  else (db, [])

/-- The request URL built for one indicator kind. -/
def indicator_url (indicator ticker : String) : String :=
  "https://api.polygon.io/v1/indicators/" ++ indicator ++ "/" ++ ticker

/-- A query-parameter value (the Python dict mixes strings and ints). -/
inductive PVal where
  | str (s : String)
  | nat (n : Nat)
  deriving DecidableEq, Repr

/-- The query-parameter dict for one indicator kind, in insertion order:
the common parameters, then the kind-specific window parameters. -/
def indicator_params (api_key from_date to_date indicator : String) : List (String × PVal) :=
  let base : List (String × PVal) :=
    [("timestamp.gte", .str from_date), ("timestamp.lte", .str to_date),
     ("timespan", .str "day"), ("adjusted", .str "true"),
     ("series_type", .str "close"), ("limit", .nat 5000), ("apiKey", .str api_key)]
  if indicator = "sma" ∨ indicator = "ema" then base ++ [("window", .nat 20)]
  else if indicator = "rsi" then base ++ [("window", .nat 14)]
  else if indicator = "macd" then
    base ++ [("short_window", .nat 12), ("long_window", .nat 26), ("signal_window", .nat 9)]
  else base

/-- One HTTP request issued by `collect_technical_indicators`. -/
structure IndRequest where
  url : String
  params : List (String × PVal)
  deriving DecidableEq, Repr

/-- The body of the `for indicator in indicators` loop: build and issue the
request (appended to the trace), then — inside the per-kind `try` — save the
values when the response has status 200 and `results.values`. -/
def indicator_step (api_key ticker from_date to_date : String)
    (oracle : String → Except Unit IndResponse) (acc : DB × List IndRequest)
    (indicator : String) : DB × List IndRequest :=
  let req : IndRequest :=
    ⟨indicator_url indicator ticker, indicator_params api_key from_date to_date indicator⟩
  let trace := acc.2 ++ [req]
  match oracle indicator with
  | .error _ => (acc.1, trace)
  | .ok resp =>
    if resp.status_code = 200 then
      match resp.results with
      | some rs =>
        match rs.values with
        | some vals => (_save_indicators acc.1 ticker indicator vals, trace)
        | none => (acc.1, trace)
      | none => (acc.1, trace)
    else (acc.1, trace)

/-- `collect_technical_indicators`: loop over the four kinds; `oracle k` is
the outcome of the HTTP request for kind `k` (`Except.error` = exception in
`session.get`/`response.json`, caught per kind). -/
def collect_technical_indicators (db : DB) (api_key ticker from_date to_date : String)
    (oracle : String → Except Unit IndResponse) : DB × List IndRequest :=
  ["sma", "ema", "rsi", "macd"].foldl (indicator_step api_key ticker from_date to_date oracle) (db, [])

/-- `collect_news`: on status 200, map the articles (first listed ticker or
NULL, keywords JSON-encoded) and save when nonempty. -/
def collect_news (db : DB) (ticker : Option String) (limit : Nat)
    (fetched : Except Unit NewsResponse) : DB :=
  match fetched with
  | .error _ => db
  | .ok resp =>
    if resp.status_code = 200 then
      let news_items := resp.results.map mkNewsRow
      if news_items.isEmpty then db else _save_news db news_items
    else db

/-- `collect_dividends`. -/
def collect_dividends (db : DB) (ticker : Option String)
    (fetched : Except Unit (List DividendRec)) : DB :=
  match fetched with
  | .error _ => db
  | .ok recs =>
    let dividends := recs.map mkDividendRow
    if dividends.isEmpty then db else _save_dividends db dividends

/-- `collect_splits`. -/
def collect_splits (db : DB) (ticker : Option String)
    (fetched : Except Unit (List SplitRow)) : DB :=
  match fetched with
  | .error _ => db
  | .ok splits => if splits.isEmpty then db else _save_splits db splits

/-- `collect_market_holidays`. -/
def collect_market_holidays (db : DB) (fetched : Except Unit (List HolidayRow)) : DB :=
  match fetched with
  | .error _ => db
  | .ok holidays => if holidays.isEmpty then db else _save_holidays db holidays

/-! ### The reporter `generate_summary_report` -/

structure SummaryReport where
  tickers : Nat
  aggregates : Nat
  snapshots : Nat
  indicators : Nat
  news : Nat
  dividends : Nat
  splits : Nat
  holidays : Nat
  date_range : Option (Int × Int)
  deriving DecidableEq, Repr

/-- `SELECT MIN(timestamp), MAX(timestamp) FROM aggregates WHERE timestamp
IS NOT NULL` (the column is NOT NULL in our model, so the guard drops
nothing; an empty table yields NULL). -/
def aggDateRange (rows : List AggRow) : Option (Int × Int) :=
  match (rows.map AggRow.timestamp).min?, (rows.map AggRow.timestamp).max? with
  | some a, some b => some (a, b)
  | _, _ => none

/-- `generate_summary_report`: eight `SELECT COUNT(*)` queries and the
min/max timestamp query; returns the (unchanged) database and the summary. -/
def generate_summary_report (db : DB) : DB × SummaryReport :=
  (db,
   { tickers := db.tickers.length, aggregates := db.aggregates.length,
     snapshots := db.snapshots.length, indicators := db.technical_indicators.length,
     news := db.news.length, dividends := db.dividends.length,
     splits := db.stock_splits.length, holidays := db.market_holidays.length,
     date_range := aggDateRange db.aggregates })

/-! ### The driver `run_complete_collection` -/

/-- One collection step of the driver, for the observable call trace. -/
inductive Op where
  | all_tickers
  | market_holidays
  | snapshots
  | news (ticker : Option String) (limit : Nat)
  | dividends (ticker : Option String)
  | splits (ticker : Option String)
  | aggregates (ticker from_date to_date timespan : String) (multiplier : Int)
  | technical_indicators (ticker from_date to_date : String)
  | sleep (seconds : ℚ)
  deriving DecidableEq, Repr

/-- All responses the environment supplies during one driver run.  `now` is
the clock value used for the snapshots' `updated_at` column. -/
structure Oracle where
  all_tickers : Except (List TickerRow) (List TickerRow)
  holidays : Except Unit (List HolidayRow)
  snapshot_all : Except Unit (List TickerSnapshot)
  news_resp : Option String → Nat → Except Unit NewsResponse
  dividends_resp : Except Unit (List DividendRec)
  splits_resp : Except Unit (List SplitRow)
  aggs : String → String → Int → Except Unit (List Agg)
  indicators : String → String → Except Unit IndResponse
  now : ℚ

/-- The per-ticker loop body of `run_complete_collection`: three aggregate
resolutions, the indicators, ticker-scoped news (limit 50), then
`time.sleep(0.1)`. -/
def ticker_loop_step (o : Oracle) (api_key start_date end_date : String)
    (acc : DB × List Op) (ticker : String) : DB × List Op :=
  let d1 := collect_aggregates acc.1 ticker start_date end_date "day" 1 (o.aggs ticker "day" 1)
  let d2 := collect_aggregates d1 ticker start_date end_date "hour" 1 (o.aggs ticker "hour" 1)
  let d3 := collect_aggregates d2 ticker start_date end_date "minute" 5 (o.aggs ticker "minute" 5)
  let d4 := (collect_technical_indicators d3 api_key ticker start_date end_date (o.indicators ticker)).1
  let d5 := collect_news d4 (some ticker) 50 (o.news_resp (some ticker) 50)
  (d5, acc.2 ++
    [Op.aggregates ticker start_date end_date "day" 1,
     Op.aggregates ticker start_date end_date "hour" 1,
     Op.aggregates ticker start_date end_date "minute" 5,
     Op.technical_indicators ticker start_date end_date,
     Op.news (some ticker) 50,
     Op.sleep (1 / 10)])

/-- `run_complete_collection`.  `start_date`/`end_date` stand for the strings
computed from today's clock and `days_back`; `tickers = none` models the
`tickers=None` default (the `if not tickers` test is also true for an empty
list).  Returns the final database and the trace of collection steps; the
closing `generate_summary_report()` call is read-only. -/
def run_complete_collection (db : DB) (o : Oracle) (api_key start_date end_date : String)
    (tickers : Option (List String)) : DB × List Op :=
  let fetch := (match tickers with | none => true | some l => l.isEmpty)
  let resolved :=
    if fetch then
      let r := collect_all_tickers db o.all_tickers
      (r.1, (r.2.take 100).map TickerRow.ticker, [Op.all_tickers])
    else (db, tickers.getD [], ([] : List Op))
  let db1 := resolved.1
  let db2 := collect_market_holidays db1 o.holidays
  let db3 := (collect_snapshots db2 o.now none o.snapshot_all).1
  let db4 := collect_news db3 none 1000 (o.news_resp none 1000)
  let db5 := collect_dividends db4 none o.dividends_resp
  let db6 := collect_splits db5 none o.splits_resp
  let trace := resolved.2.2 ++
    [Op.market_holidays, Op.snapshots, Op.news none 1000, Op.dividends none, Op.splits none]
  let final := resolved.2.1.foldl (ticker_loop_step o api_key start_date end_date) (db6, trace)
  ((generate_summary_report final.1).1, final.2)

/-! ### Specification predicates and sample inputs -/

/-- The invariant asserted by the spec for the `technical_indicators` table,
word for word: one of the four kinds, at most one row per `(ticker,
timestamp)` *pair*, and non-`macd` rows NULL in the signal/histogram
columns. -/
def specIndicatorPairInvariant (table : List IndicatorRow) : Prop :=
  (∀ r ∈ table, r.indicator_type = "sma" ∨ r.indicator_type = "ema" ∨
    r.indicator_type = "rsi" ∨ r.indicator_type = "macd") ∧
  (table.map (fun r => (r.ticker, r.timestamp))).Nodup ∧
  (∀ r ∈ table, r.indicator_type ≠ "macd" →
    r.signal_value = none ∧ r.histogram_value = none)

instance (table : List IndicatorRow) : Decidable (specIndicatorPairInvariant table) := by
  unfold specIndicatorPairInvariant
  infer_instance

/-- The invariant the code actually maintains: uniqueness is per `(ticker,
timestamp, indicator_type)` *triple* (the declared primary key) among the
rows whose nullable `timestamp` is present — NULL-timestamp rows never
conflict and may duplicate — and non-`macd` rows are NULL in
signal/histogram as long as their response values carried no such fields. -/
def indicatorInvariant (table : List IndicatorRow) : Prop :=
  (∀ r ∈ table, (r.indicator_type = "sma" ∨ r.indicator_type = "ema" ∨
      r.indicator_type = "rsi" ∨ r.indicator_type = "macd") ∧
    (r.indicator_type ≠ "macd" → r.signal_value = none ∧ r.histogram_value = none)) ∧
  ((table.filter (fun r => r.timestamp.isSome)).map indKey).Nodup

instance (table : List IndicatorRow) : Decidable (indicatorInvariant table) := by
  unfold indicatorInvariant
  infer_instance

/-- A fetched indicator response whose values all lack signal/histogram
fields (trivially for errors, non-200 replies and missing keys). -/
def valuesOk (r : Except Unit IndResponse) : Bool :=
  match r with
  | .error _ => true
  | .ok resp =>
    match resp.results with
    | none => true
    | some rs =>
      match rs.values with
      | none => true
      | some vals => vals.all (fun v => v.signal == none && v.histogram == none)

/-- Sample daily bars, as in the spec's end-to-end scenario. -/
def bar1 : Agg := ⟨1704067200000, 10, 12, 9, 11, 1000, some (21/2), some 50⟩

def bar2 : Agg := ⟨1704153600000, 11, 13, 10, 12, 1100, none, none⟩

def bar3 : Agg := ⟨1704240000000, 12, 14, 11, 13, 1200, some 12, none⟩

def snapTD1 : TickerSnapshot :=
  ⟨"ABC", some ⟨some 1, some 10, some 12, some 9, some 11, some 100⟩, some ⟨some 8⟩, some 3, some (3/10)⟩

def divRec1 : DividendRec := ⟨"ABC", "2024-01-10", "2024-02-01", "2024-01-15", none, 1/4, none, "USD"⟩

def splitRow1 : SplitRow := ⟨"ABC", "2024-01-20", 1, 2⟩

def holRow1 : HolidayRow := ⟨"2024-01-01", "New Years Day", "NYSE", "closed"⟩

def article1 : Article :=
  ⟨some "news-1", ["ABC", "XYZ"], some "headline", some "author", some "2024-01-02T00:00:00Z",
   some "https://example.com/a", none, none, some "body", ["markets"]⟩

/-- A database already holding the row saved from `article1`. -/
def dbNews : DB := { emptyDB with news := [mkNewsRow article1] }

/-- A second article reusing the id `news-1` with different columns. -/
def article1b : Article :=
  ⟨some "news-1", ["XYZ"], some "changed headline", none, some "2024-01-03T00:00:00Z",
   none, none, none, none, []⟩

/-- A bar sharing `bar1`'s timestamp but with a different close. -/
def bar1x : Agg := ⟨1704067200000, 10, 12, 9, 99, 1000, none, none⟩

/-- A snapshot response entry without a `day` attribute. -/
def snapNoDay : TickerSnapshot := ⟨"NODAY", none, none, none, none⟩

/-- A snapshot response entry whose `day` carries no `timestamp` (it maps to
a row with a NULL primary-key component). -/
def snapNoTs : TickerSnapshot := ⟨"ABC", some ⟨none, none, none, none, none, none⟩, none, none, none⟩

def indValue1 : IndValue := ⟨some 1, some 10, none, none⟩

/-- An `sma` response value that carries a `signal` field. -/
def indValueS1 : IndValue := ⟨some 1, some 10, some 5, none⟩

/-- Two `sma` response values with no timestamp. -/
def indValueS2 : IndValue := ⟨none, some 20, none, none⟩

def indValueS3 : IndValue := ⟨none, some 21, none, none⟩

def indValueE1 : IndValue := ⟨some 1, some 11, none, none⟩

def okIndResponse (vals : List IndValue) : IndResponse := ⟨200, some ⟨some vals⟩⟩

/-- Indicator responses: `sma` succeeds with one value, every other kind's
request raises. -/
def oracleC2 : String → Except Unit IndResponse := fun indicator =>
  if indicator = "sma" then .ok (okIndResponse [indValue1]) else .error ()

/-- Indicator responses: `sma` succeeds with a signal-carrying value at
timestamp 1 and two NULL-timestamp values, `ema` succeeds with one value at
timestamp 1, `rsi` and `macd` raise. -/
def oracleC6 : String → Except Unit IndResponse := fun indicator =>
  if indicator = "sma" then .ok (okIndResponse [indValueS1, indValueS2, indValueS3])
  else if indicator = "ema" then .ok (okIndResponse [indValueE1])
  else .error ()

/-- A driver oracle for concrete runs: the ticker listing succeeds with no
records, every other request raises. -/
def oracle0 : Oracle :=
  { all_tickers := .ok [], holidays := .error (), snapshot_all := .error (),
    news_resp := fun _ _ => .error (), dividends_resp := .error (),
    splits_resp := .error (), aggs := fun _ _ _ => .error (),
    indicators := fun _ _ => .error (), now := 0 }

/-! ### Lemmas about the storage semantics -/

theorem upsertAll_cons {ρ κ : Type} [DecidableEq κ] (key : ρ → κ) (t : List ρ) (s : ρ) (rs : List ρ) :
    upsertAll key t (s :: rs) = upsertAll key (upsert key t s) rs := rfl

/-- Factorization of a bulk `INSERT OR REPLACE`: surviving old rows (those
whose key no incoming record hits) in front, then the incoming records' net
effect. -/
theorem upsertAll_eq {ρ κ : Type} [DecidableEq κ] (key : ρ → κ) (rs : List ρ) :
    ∀ t : List ρ, upsertAll key t rs =
      t.filter (fun x => !(hits key rs x)) ++ upsertAll key [] rs := by
  induction rs with
  | nil =>
    intro t
    simp [upsertAll, hits]
  | cons s rs ih =>
    intro t
    rw [upsertAll_cons, ih (upsert key t s), upsertAll_cons, ih (upsert key [] s)]
    show (upsert key t s).filter _ ++ _ = _
    have hu : upsert key [] s = [s] := rfl
    rw [hu, upsert, List.filter_append, List.filter_filter, List.append_assoc]
    congr 1
    apply List.filter_congr
    intro x _
    simp [hits, Bool.not_or, decide_not, Bool.and_comm]

theorem mem_upsertAll {ρ κ : Type} [DecidableEq κ] {key : ρ → κ} (rs : List ρ) :
    ∀ t x, x ∈ upsertAll key t rs → x ∈ t ∨ x ∈ rs := by
  induction rs with
  | nil => intro t x h; exact Or.inl h
  | cons s rs ih =>
    intro t x h
    rcases ih (upsert key t s) x h with h' | h'
    · rcases List.mem_append.1 h' with h'' | h''
      · exact Or.inl (List.mem_of_mem_filter h'')
      · rcases List.mem_singleton.1 h'' with rfl
        exact Or.inr (List.mem_cons_self ..)
    · exact Or.inr (List.mem_cons_of_mem _ h')

theorem hits_of_mem {ρ κ : Type} [DecidableEq κ] {key : ρ → κ} {rs : List ρ} {x : ρ}
    (h : x ∈ rs) : hits key rs x = true :=
  List.any_eq_true.2 ⟨x, h, by simp⟩

/-- Replaying the same record list over an already-upserted table is a
no-op. -/
theorem upsertAll_idem {ρ κ : Type} [DecidableEq κ] (key : ρ → κ) (t rs : List ρ) :
    upsertAll key (upsertAll key t rs) rs = upsertAll key t rs := by
  rw [upsertAll_eq key rs (upsertAll key t rs), upsertAll_eq key rs t,
    List.filter_append, List.filter_filter]
  have h1 : (upsertAll key [] rs).filter (fun x => !(hits key rs x)) = [] := by
    rw [List.filter_eq_nil_iff]
    intro x hx
    rcases mem_upsertAll rs [] x hx with h | h
    · cases h
    · simp [hits_of_mem h]
  rw [h1, List.append_nil]
  congr 1
  apply List.filter_congr
  intro x _
  simp

/-- `INSERT OR REPLACE` preserves key uniqueness. -/
theorem nodup_upsert {ρ κ : Type} [DecidableEq κ] {key : ρ → κ} {t : List ρ}
    (h : (t.map key).Nodup) (r : ρ) : ((upsert key t r).map key).Nodup := by
  rw [upsert, List.map_append]
  apply List.Nodup.append
  · exact ((List.filter_sublist t).map key).nodup h
  · exact List.nodup_singleton _
  · intro a ha hb
    rcases List.mem_map.1 ha with ⟨x, hx, rfl⟩
    rcases List.mem_filter.1 hx with ⟨-, hxk⟩
    exact (of_decide_eq_true hxk) (List.mem_singleton.1 hb)

theorem nodup_upsertAll {ρ κ : Type} [DecidableEq κ] {key : ρ → κ} (rs : List ρ) :
    ∀ t : List ρ, (t.map key).Nodup → ((upsertAll key t rs).map key).Nodup := by
  induction rs with
  | nil => intro t h; exact h
  | cons s rs ih =>
    intro t h
    exact ih (upsert key t s) (nodup_upsert h s)

/-- A bulk `INSERT OR REPLACE` of records with pairwise distinct keys into
an empty table stores exactly those records, in order. -/
theorem upsertAll_nil_of_nodup {ρ κ : Type} [DecidableEq κ] {key : ρ → κ} {rs : List ρ}
    (h : (rs.map key).Nodup) : upsertAll key [] rs = rs := by
  induction rs with
  | nil => rfl
  | cons s rs ih =>
    rw [List.map_cons, List.nodup_cons] at h
    have hu : upsert key [] s = [s] := rfl
    rw [upsertAll_cons, hu, upsertAll_eq key rs [s], ih h.2]
    have hhit : hits key rs s = false := by
      rw [hits, List.any_eq_false]
      intro x hx
      simp only [decide_eq_true_eq]
      intro he
      exact h.1 (he ▸ List.mem_map_of_mem key hx)
    simp [hhit]

/-- `INSERT OR IGNORE` only ever appends rows, and only rows whose id does
not conflict with any already-present row. -/
theorem insertIgnoreAll_append (rs : List NewsRow) :
    ∀ t, ∃ s, insertIgnoreAll t rs = t ++ s ∧
      ∀ x ∈ s, ∀ y ∈ t, newsConflict y x = false := by
  induction rs with
  | nil =>
    intro t
    exact ⟨[], by simp [insertIgnoreAll], by simp⟩
  | cons a rs ih =>
    intro t
    have hstep : insertIgnoreAll t (a :: rs) = insertIgnoreAll (insertIgnore t a) rs := rfl
    cases h : t.any (fun x => newsConflict x a) with
    | true =>
      obtain ⟨s, hs, hf⟩ := ih t
      refine ⟨s, ?_, hf⟩
      rw [hstep, insertIgnore, h]
      simpa using hs
    | false =>
      obtain ⟨s, hs, hf⟩ := ih (t ++ [a])
      refine ⟨a :: s, ?_, ?_⟩
      · rw [hstep, insertIgnore, h]
        simp only [Bool.false_eq_true, if_false]
        rw [hs, List.append_assoc, List.singleton_append]
      · intro x hx y hy
        rcases List.mem_cons.1 hx with rfl | hx'
        · simpa using List.any_eq_false.1 h y hy
        · exact hf x hx' y (List.mem_append_left _ hy)

theorem mem_upsertAllC {ρ : Type} {conflict : ρ → ρ → Bool} (rs : List ρ) :
    ∀ t x, x ∈ upsertAllC conflict t rs → x ∈ t ∨ x ∈ rs := by
  induction rs with
  | nil => intro t x h; exact Or.inl h
  | cons s rs ih =>
    intro t x h
    rcases ih (upsertC conflict t s) x h with h' | h'
    · rcases List.mem_append.1 h' with h'' | h''
      · exact Or.inl (List.mem_of_mem_filter h'')
      · rcases List.mem_singleton.1 h'' with rfl
        exact Or.inr (List.mem_cons_self ..)
    · exact Or.inr (List.mem_cons_of_mem _ h')

/-- When every incoming row's conflict test coincides with key equality (all
nullable key components present), the conflict-based replace is the
key-based one. -/
theorem upsertAllC_eq_upsertAll {ρ κ : Type} [DecidableEq κ] {conflict : ρ → ρ → Bool}
    {key : ρ → κ} {rs : List ρ}
    (hconf : ∀ r ∈ rs, ∀ x, conflict x r = decide (key x = key r)) :
    ∀ t, upsertAllC conflict t rs = upsertAll key t rs := by
  induction rs with
  | nil => intro t; rfl
  | cons r rs ih =>
    intro t
    have hstep : upsertC conflict t r = upsert key t r := by
      rw [upsertC, upsert]
      congr 1
      apply List.filter_congr
      intro x _
      rw [hconf r (List.mem_cons_self ..) x]
      simp [decide_not]
    show upsertAllC conflict (upsertC conflict t r) rs = upsertAll key (upsert key t r) rs
    rw [hstep]
    exact ih (fun s hs x => hconf s (List.mem_cons_of_mem _ hs) x) (upsert key t r)

/-- Projecting a conflict-based replace onto the rows whose nullable key
component is present (`nn`) gives a key-based replace: NULL-keyed incoming
rows conflict with nothing and fall outside the projection. -/
theorem filter_upsertAllC {ρ κ : Type} [DecidableEq κ] (conflict : ρ → ρ → Bool)
    (key : ρ → κ) (nn : ρ → Bool)
    (h1 : ∀ x r, nn r = false → conflict x r = false)
    (h2 : ∀ x r, nn r = true → conflict x r = decide (key x = key r))
    (rs : List ρ) :
    ∀ t, (upsertAllC conflict t rs).filter nn =
      upsertAll key (t.filter nn) (rs.filter nn) := by
  induction rs with
  | nil => intro t; rfl
  | cons r rs ih =>
    intro t
    show (upsertAllC conflict (upsertC conflict t r) rs).filter nn = _
    rw [ih]
    cases hr : nn r with
    | false =>
      have hstep : (upsertC conflict t r).filter nn = t.filter nn := by
        rw [upsertC, List.filter_append]
        have hid : t.filter (fun x => !(conflict x r)) = t := by
          rw [List.filter_eq_self]
          intro x _
          rw [h1 x r hr]
          rfl
        rw [hid]
        simp [hr]
      rw [hstep]
      congr 1
      simp [List.filter_cons, hr]
    | true =>
      have hstep : (upsertC conflict t r).filter nn = upsert key (t.filter nn) r := by
        rw [upsertC, upsert, List.filter_append, List.filter_filter, List.filter_filter]
        have hsing : List.filter nn [r] = [r] := by simp [hr]
        rw [hsing]
        congr 1
        apply List.filter_congr
        intro x _
        rw [h2 x r hr]
        simp [decide_not, Bool.and_comm]
      rw [hstep]
      have hcons : (r :: rs).filter nn = r :: rs.filter nn := by simp [List.filter_cons, hr]
      rw [hcons]
      rfl

theorem snapConflict_none (x r : SnapshotRow) (h : r.timestamp = none) :
    snapConflict x r = false := by
  rcases hx : x.timestamp with _ | j <;> simp [snapConflict, h, hx]

theorem snapConflict_eq_key (x r : SnapshotRow) (h : r.timestamp ≠ none) :
    snapConflict x r = decide (snapKey x = snapKey r) := by
  rcases hr : r.timestamp with _ | i
  · exact absurd hr h
  · rcases hx : x.timestamp with _ | j <;>
      simp [snapConflict, snapKey, hr, hx, Prod.ext_iff]

theorem indConflict_none (x r : IndicatorRow) (h : r.timestamp = none) :
    indConflict x r = false := by
  rcases hx : x.timestamp with _ | j <;> simp [indConflict, h, hx]

theorem indConflict_eq_key (x r : IndicatorRow) (h : r.timestamp ≠ none) :
    indConflict x r = decide (indKey x = indKey r) := by
  rcases hr : r.timestamp with _ | i
  · exact absurd hr h
  · rcases hx : x.timestamp with _ | j <;>
      simp [indConflict, indKey, hr, hx, Prod.ext_iff, and_assoc, Bool.and_assoc,
        Bool.and_comm, Bool.and_left_comm]

/-! ### Claim C9 -/

/-- Claim C9: `generate_summary_report` is side-effect-free with respect to
the data store — for every database state it returns the eight tables (every
row and column) unchanged, computing only the per-table counts and the
min/max aggregate timestamp. -/
theorem claim_C9_report_is_pure (db : DB) : (generate_summary_report db).1 = db := rfl

/-! ### Claim C7 -/

/-- Claim C7: for an API response containing zero records, every collect
operation writes no rows to any table and raises no error — the resulting
database equals the input database for all eight operations. -/
theorem claim_C7_empty_response (db : DB) (now : ℚ) (tkr fd td tsn : String)
    (m : Int) (otk : Option String) (lim : Nat) (tks : Option (List String)) :
    (collect_all_tickers db (.ok [])).1 = db ∧
    collect_aggregates db tkr fd td tsn m (.ok []) = db ∧
    (collect_snapshots db now tks (.ok [])).1 = db ∧
    (collect_technical_indicators db tkr tkr fd td (fun _ => .ok (okIndResponse []))).1 = db ∧
    collect_news db otk lim (.ok ⟨200, []⟩) = db ∧
    collect_dividends db otk (.ok []) = db ∧
    collect_splits db otk (.ok []) = db ∧
    collect_market_holidays db (.ok []) = db := by
  refine ⟨rfl, rfl, ?_, rfl, rfl, rfl, rfl, rfl⟩
  cases tks with
  | none => rfl
  | some l => cases l with
    | nil => rfl
    | cons a l => rfl

/-! ### Claim C5 -/

theorem indicator_step_trace (k tkr fd td : String) (oracle : String → Except Unit IndResponse)
    (acc : DB × List IndRequest) (ind : String) :
    (indicator_step k tkr fd td oracle acc ind).2 =
      acc.2 ++ [⟨indicator_url ind tkr, indicator_params k fd td ind⟩] := by
  unfold indicator_step
  rcases h : oracle ind with _ | ⟨sc, res⟩
  · rfl
  · dsimp only
    by_cases h200 : sc = 200
    · subst h200
      rcases res with _ | ⟨vals⟩
      · rfl
      · rcases vals with _ | v <;> rfl
    · rw [if_neg h200]

theorem cti_trace (k tkr fd td : String) (oracle : String → Except Unit IndResponse)
    (inds : List String) :
    ∀ acc : DB × List IndRequest,
      (inds.foldl (indicator_step k tkr fd td oracle) acc).2 =
        acc.2 ++ inds.map (fun ind => ⟨indicator_url ind tkr, indicator_params k fd td ind⟩) := by
  induction inds with
  | nil => intro acc; simp
  | cons a l ih =>
    intro acc
    rw [List.foldl_cons, ih, indicator_step_trace]
    simp

/-- Claim C5: for every ticker and date range — and every outcome of the
four HTTP requests, so a failure of one kind never prevents the remaining
kinds from being attempted — `collect_technical_indicators` issues exactly
four requests, in the order sma, ema, rsi, macd, with the fixed kind-specific
window parameters (20 for sma/ema, 14 for rsi, 12/26/9 for macd). -/
theorem claim_C5_four_requests (db : DB) (k tkr fd td : String)
    (oracle : String → Except Unit IndResponse) :
    (collect_technical_indicators db k tkr fd td oracle).2 =
      [⟨indicator_url "sma" tkr,
        [("timestamp.gte", .str fd), ("timestamp.lte", .str td), ("timespan", .str "day"),
         ("adjusted", .str "true"), ("series_type", .str "close"), ("limit", .nat 5000),
         ("apiKey", .str k), ("window", .nat 20)]⟩,
       ⟨indicator_url "ema" tkr,
        [("timestamp.gte", .str fd), ("timestamp.lte", .str td), ("timespan", .str "day"),
         ("adjusted", .str "true"), ("series_type", .str "close"), ("limit", .nat 5000),
         ("apiKey", .str k), ("window", .nat 20)]⟩,
       ⟨indicator_url "rsi" tkr,
        [("timestamp.gte", .str fd), ("timestamp.lte", .str td), ("timespan", .str "day"),
         ("adjusted", .str "true"), ("series_type", .str "close"), ("limit", .nat 5000),
         ("apiKey", .str k), ("window", .nat 14)]⟩,
       ⟨indicator_url "macd" tkr,
        [("timestamp.gte", .str fd), ("timestamp.lte", .str td), ("timespan", .str "day"),
         ("adjusted", .str "true"), ("series_type", .str "close"), ("limit", .nat 5000),
         ("apiKey", .str k), ("short_window", .nat 12), ("long_window", .nat 26),
         ("signal_window", .nat 9)]⟩] := by
  rw [collect_technical_indicators, cti_trace]
  rfl

/-! ### Claim C2 -/

/-- Claim C2 counterexample: `collect_technical_indicators` catches
exceptions per indicator kind, not around its whole body, so an exception in
a later kind's request does not leave the stored tables as they were before
the call — here the `ema` request raises but the rows of the earlier
successful `sma` request remain committed, so the database differs from the
initial one.  This falsifies the claim that every `collect_X` operation
leaves the tables unchanged whenever any exception arises in its body. -/
theorem claim_C2_counterexample :
    oracleC2 "ema" = .error () ∧
    (collect_technical_indicators emptyDB "key" "ABC" "2024-01-01" "2024-01-31" oracleC2).1 ≠ emptyDB := by
  exact ⟨rfl, by decide⟩

/-- Claim C2 as amended: every collect operation is total (never raises —
exceptions are caught, logged, and the operation returns), and an exception
leaves the database exactly unchanged for every operation except
`collect_technical_indicators`; for the latter, the failing kind's loop
iteration leaves the database unchanged, while saves of other, successful
kinds persist. -/
theorem claim_C2_errors_swallowed (db : DB) (now : ℚ) (tkr fd td tsn : String) (m : Int)
    (tks : Option (List String)) (otk : Option String) (lim : Nat)
    (collected : List TickerRow) (k : String)
    (oracle : String → Except Unit IndResponse) (acc : DB × List IndRequest) (ind : String) :
    (collect_all_tickers db (.error collected)).1 = db ∧
    collect_aggregates db tkr fd td tsn m (.error ()) = db ∧
    (collect_snapshots db now tks (.error ())).1 = db ∧
    collect_news db otk lim (.error ()) = db ∧
    collect_dividends db otk (.error ()) = db ∧
    collect_splits db otk (.error ()) = db ∧
    collect_market_holidays db (.error ()) = db ∧
    (oracle ind = .error () → (indicator_step k tkr fd td oracle acc ind).1 = acc.1) := by
  refine ⟨rfl, rfl, ?_, rfl, rfl, rfl, rfl, ?_⟩
  · cases tks with
    | none => rfl
    | some l => cases l with
      | nil => rfl
      | cons a l => rfl
  · intro h
    unfold indicator_step
    rw [h]

theorem claim_C2_witness :
    (indicator_step "key" "ABC" "2024-01-01" "2024-01-31" oracleC2 (emptyDB, []) "ema").1 = emptyDB :=
  (claim_C2_errors_swallowed emptyDB 0 "ABC" "2024-01-01" "2024-01-31" "day" 1 none none 1000 []
    "key" oracleC2 (emptyDB, []) "ema").2.2.2.2.2.2.2 rfl

/-! ### Claim C1 -/

theorem collect_aggregates_idem (db : DB) (tkr fd td tsn : String) (m : Int)
    (ra : Except Unit (List Agg)) :
    collect_aggregates (collect_aggregates db tkr fd td tsn m ra) tkr fd td tsn m ra =
      collect_aggregates db tkr fd td tsn m ra := by
  rcases ra with _ | bars
  · rfl
  · by_cases h : (bars.map (mkAggRow tkr tsn m)).isEmpty
    · simp [collect_aggregates, h]
    · simp [collect_aggregates, h, _save_aggregates, upsertAll_idem]

/-- Each snapshot row mapped from a response whose `day` records all carry
timestamps has a conflict test that coincides with `(ticker, timestamp)` key
equality. -/
theorem collect_snapshots_rows_nn (now : ℚ) (response : List TickerSnapshot)
    (hsnap : response.all (fun s => s.day.all (fun d => d.timestamp.isSome)) = true) :
    ∀ r ∈ response.filterMap (fun td => td.day.map (mkSnapshotRow now td)), ∀ x,
      snapConflict x r = decide (snapKey x = snapKey r) := by
  intro r hrw x
  rcases List.mem_filterMap.1 hrw with ⟨td, htd, hmap⟩
  rcases Option.map_eq_some'.1 hmap with ⟨d, hd, hrow⟩
  have hall := List.all_eq_true.1 hsnap td htd
  rw [hd] at hall
  have hts : d.timestamp.isSome = true := by simpa [Option.all] using hall
  apply snapConflict_eq_key
  rw [← hrow]
  show d.timestamp ≠ none
  rcases ht : d.timestamp with _ | i
  · rw [ht] at hts
    cases hts
  · exact Option.some_ne_none i

theorem collect_snapshots_idem (db : DB) (now : ℚ) (response : List TickerSnapshot)
    (hsnap : response.all (fun s => s.day.all (fun d => d.timestamp.isSome)) = true) :
    (collect_snapshots (collect_snapshots db now none (.ok response)).1 now none
      (.ok response)).1 = (collect_snapshots db now none (.ok response)).1 := by
  have hbr : ∀ t, upsertAllC snapConflict t
      (response.filterMap (fun td => td.day.map (mkSnapshotRow now td))) =
      upsertAll snapKey t (response.filterMap (fun td => td.day.map (mkSnapshotRow now td))) :=
    upsertAllC_eq_upsertAll (collect_snapshots_rows_nn now response hsnap)
  by_cases h : (response.filterMap (fun td => td.day.map (mkSnapshotRow now td))).isEmpty
  · simp [collect_snapshots, h]
  · simp [collect_snapshots, h, _save_snapshots, hbr, upsertAll_idem]

theorem collect_dividends_idem (db : DB) (rd : Except Unit (List DividendRec)) :
    collect_dividends (collect_dividends db none rd) none rd = collect_dividends db none rd := by
  rcases rd with _ | recs
  · rfl
  · by_cases h : (recs.map mkDividendRow).isEmpty
    · simp [collect_dividends, h]
    · simp [collect_dividends, h, _save_dividends, upsertAll_idem]

theorem collect_splits_idem (db : DB) (rp : Except Unit (List SplitRow)) :
    collect_splits (collect_splits db none rp) none rp = collect_splits db none rp := by
  rcases rp with _ | recs
  · rfl
  · by_cases h : recs.isEmpty
    · simp [collect_splits, h]
    · simp [collect_splits, h, _save_splits, upsertAll_idem]

theorem collect_holidays_idem (db : DB) (rh : Except Unit (List HolidayRow)) :
    collect_market_holidays (collect_market_holidays db rh) rh = collect_market_holidays db rh := by
  rcases rh with _ | recs
  · rfl
  · by_cases h : recs.isEmpty
    · simp [collect_market_holidays, h]
    · simp [collect_market_holidays, h, _save_holidays, upsertAll_idem]

/-- Claim C1 counterexample: a snapshot record whose `day` lacks a
`timestamp` maps to a row with a NULL primary-key component; SQLite never
conflicts on NULL, so re-collecting the same response duplicates the row —
after two identical runs the snapshots table holds two rows instead of the
single row left by one run, refuting both the tables-equal and the
no-duplicate-rows readings of the claim. -/
theorem claim_C1_counterexample :
    (collect_snapshots (collect_snapshots emptyDB 0 none (.ok [snapNoTs])).1 0 none
      (.ok [snapNoTs])).1 ≠ (collect_snapshots emptyDB 0 none (.ok [snapNoTs])).1 ∧
    (collect_snapshots (collect_snapshots emptyDB 0 none (.ok [snapNoTs])).1 0 none
      (.ok [snapNoTs])).1.snapshots.length = 2 ∧
    (collect_snapshots emptyDB 0 none (.ok [snapNoTs])).1.snapshots.length = 1 := by
  decide

/-- Claim C1 as amended: collecting twice with the same arguments and
responses leaves the aggregates, dividends, stock_splits and market_holidays
tables equal to the state after a single run, and key uniqueness is
preserved, for all responses; the same holds for snapshots provided every
repeated record's `day` carries a timestamp — a record whose `day` lacks one
yields a NULL-keyed row that never conflicts and therefore duplicates on
re-collection. -/
theorem claim_C1_saves_idempotent (db : DB) (now : ℚ) (tkr fd td tsn : String) (m : Int)
    (ra : Except Unit (List Agg)) (rd : Except Unit (List DividendRec))
    (rp : Except Unit (List SplitRow)) (rh : Except Unit (List HolidayRow))
    (response : List TickerSnapshot)
    (hsnap : response.all (fun s => s.day.all (fun d => d.timestamp.isSome)) = true) :
    (collect_aggregates (collect_aggregates db tkr fd td tsn m ra) tkr fd td tsn m ra =
      collect_aggregates db tkr fd td tsn m ra) ∧
    ((collect_snapshots (collect_snapshots db now none (.ok response)).1 now none
      (.ok response)).1 = (collect_snapshots db now none (.ok response)).1) ∧
    (collect_dividends (collect_dividends db none rd) none rd = collect_dividends db none rd) ∧
    (collect_splits (collect_splits db none rp) none rp = collect_splits db none rp) ∧
    (collect_market_holidays (collect_market_holidays db rh) rh =
      collect_market_holidays db rh) ∧
    ((db.aggregates.map aggKey).Nodup →
      ((collect_aggregates db tkr fd td tsn m ra).aggregates.map aggKey).Nodup) ∧
    ((db.snapshots.map snapKey).Nodup →
      ((collect_snapshots db now none (.ok response)).1.snapshots.map snapKey).Nodup) ∧
    ((db.dividends.map divKey).Nodup →
      ((collect_dividends db none rd).dividends.map divKey).Nodup) ∧
    ((db.stock_splits.map splitKey).Nodup →
      ((collect_splits db none rp).stock_splits.map splitKey).Nodup) ∧
    ((db.market_holidays.map holidayKey).Nodup →
      ((collect_market_holidays db rh).market_holidays.map holidayKey).Nodup) := by
  have hbr : ∀ t, upsertAllC snapConflict t
      (response.filterMap (fun td => td.day.map (mkSnapshotRow now td))) =
      upsertAll snapKey t (response.filterMap (fun td => td.day.map (mkSnapshotRow now td))) :=
    upsertAllC_eq_upsertAll (collect_snapshots_rows_nn now response hsnap)
  refine ⟨collect_aggregates_idem db tkr fd td tsn m ra,
    collect_snapshots_idem db now response hsnap,
    collect_dividends_idem db rd, collect_splits_idem db rp, collect_holidays_idem db rh,
    ?_, ?_, ?_, ?_, ?_⟩
  · intro h
    rcases ra with _ | bars
    · exact h
    · by_cases hemp : (bars.map (mkAggRow tkr tsn m)).isEmpty
      · simpa [collect_aggregates, hemp] using h
      · simp only [collect_aggregates, hemp, Bool.false_eq_true, if_false, _save_aggregates]
        exact nodup_upsertAll _ _ h
  · intro h
    by_cases hemp : (response.filterMap (fun td => td.day.map (mkSnapshotRow now td))).isEmpty
    · simpa [collect_snapshots, hemp] using h
    · simp only [collect_snapshots, hemp, Bool.false_eq_true, if_false, _save_snapshots]
      rw [hbr]
      exact nodup_upsertAll _ _ h
  · intro h
    rcases rd with _ | recs
    · exact h
    · by_cases hemp : (recs.map mkDividendRow).isEmpty
      · simpa [collect_dividends, hemp] using h
      · simp only [collect_dividends, hemp, Bool.false_eq_true, if_false, _save_dividends]
        exact nodup_upsertAll _ _ h
  · intro h
    rcases rp with _ | recs
    · exact h
    · by_cases hemp : recs.isEmpty
      · simpa [collect_splits, hemp] using h
      · simp only [collect_splits, hemp, Bool.false_eq_true, if_false, _save_splits]
        exact nodup_upsertAll _ _ h
  · intro h
    rcases rh with _ | recs
    · exact h
    · by_cases hemp : recs.isEmpty
      · simpa [collect_market_holidays, hemp] using h
      · simp only [collect_market_holidays, hemp, Bool.false_eq_true, if_false, _save_holidays]
        exact nodup_upsertAll _ _ h

theorem claim_C1_witness :
    ((collect_aggregates emptyDB "ABC" "2024-01-01" "2024-01-03" "day" 1
      (.ok [bar1])).aggregates.map aggKey).Nodup ∧
    ((collect_snapshots emptyDB 0 none (.ok [snapTD1])).1.snapshots.map snapKey).Nodup ∧
    ((collect_dividends emptyDB none (.ok [divRec1])).dividends.map divKey).Nodup ∧
    ((collect_splits emptyDB none (.ok [splitRow1])).stock_splits.map splitKey).Nodup ∧
    ((collect_market_holidays emptyDB (.ok [holRow1])).market_holidays.map holidayKey).Nodup := by
  have h := claim_C1_saves_idempotent emptyDB 0 "ABC" "2024-01-01" "2024-01-03" "day" 1
    (.ok [bar1]) (.ok [divRec1]) (.ok [splitRow1]) (.ok [holRow1]) [snapTD1] (by decide)
  exact ⟨h.2.2.2.2.2.1 (by decide), h.2.2.2.2.2.2.1 (by decide), h.2.2.2.2.2.2.2.1 (by decide),
    h.2.2.2.2.2.2.2.2.1 (by decide), h.2.2.2.2.2.2.2.2.2 (by decide)⟩

/-! ### Claim C3 -/

/-- Claim C3 counterexample: not every returned record becomes exactly one
row — `collect_aggregates` collapses two bars sharing a timestamp into the
single, last row (`INSERT OR REPLACE` on the declared key), and
`collect_snapshots` maps a record lacking a `day` attribute to no row at
all, so a 2-record aggregate response yields 1 row and a 1-record snapshot
response yields 0 rows. -/
theorem claim_C3_counterexample :
    (collect_aggregates emptyDB "ABC" "2024-01-01" "2024-01-03" "day" 1
      (.ok [bar1, bar1x])).aggregates = [mkAggRow "ABC" "day" 1 bar1x] ∧
    (collect_snapshots emptyDB 0 none (.ok [snapNoDay])).1.snapshots = [] := by
  decide

/-- Claim C3 as amended: on a successful response whose bars carry pairwise
distinct timestamps, `collect_aggregates` maps every returned bar into
exactly one row — the table afterwards is the surviving old rows followed by
the mapped rows in response order (`mkAggRow` keys each row by `(ticker,
timestamp, timespan, multiplier)`, copies the OHLCV fields and stores absent
optional `vwap`/`transactions` as NULL); in particular from an empty
aggregates table the result is exactly the mapped rows, one per bar.
Records sharing a key collapse to the last one and day-less snapshot records
produce no row (see the counterexample). -/
theorem claim_C3_maps_each_record (db : DB) (tkr fd td tsn : String) (m : Int)
    (bars : List Agg) (hts : (bars.map Agg.timestamp).Nodup) :
    (collect_aggregates db tkr fd td tsn m (.ok bars)).aggregates =
      db.aggregates.filter (fun x => !(hits aggKey (bars.map (mkAggRow tkr tsn m)) x)) ++
        bars.map (mkAggRow tkr tsn m) ∧
    (db.aggregates = [] →
      (collect_aggregates db tkr fd td tsn m (.ok bars)).aggregates =
        bars.map (mkAggRow tkr tsn m) ∧
      (collect_aggregates db tkr fd td tsn m (.ok bars)).aggregates.length = bars.length) := by
  have hkeys : ((bars.map (mkAggRow tkr tsn m)).map aggKey).Nodup := by
    rw [List.map_map]
    have hcomp : (aggKey ∘ mkAggRow tkr tsn m) =
        (fun ts => ((tkr, ts, tsn, m) : String × Int × String × Int)) ∘ Agg.timestamp := rfl
    rw [hcomp, ← List.map_map]
    refine List.Nodup.map ?_ hts
    intro a b hab
    simpa using hab
  have hmain : (collect_aggregates db tkr fd td tsn m (.ok bars)).aggregates =
      db.aggregates.filter (fun x => !(hits aggKey (bars.map (mkAggRow tkr tsn m)) x)) ++
        bars.map (mkAggRow tkr tsn m) := by
    by_cases hemp : (bars.map (mkAggRow tkr tsn m)).isEmpty
    · rw [List.isEmpty_iff] at hemp
      have hb : bars = [] := by
        cases bars with
        | nil => rfl
        | cons b l => cases hemp
      subst hb
      simp [collect_aggregates, hits]
    · simp only [collect_aggregates, hemp, Bool.false_eq_true, if_false, _save_aggregates]
      rw [upsertAll_eq, upsertAll_nil_of_nodup hkeys]
  refine ⟨hmain, fun hdb => ?_⟩
  have hempty : (collect_aggregates db tkr fd td tsn m (.ok bars)).aggregates =
      bars.map (mkAggRow tkr tsn m) := by
    rw [hmain, hdb]
    rfl
  exact ⟨hempty, by rw [hempty, List.length_map]⟩

theorem claim_C3_witness :
    (collect_aggregates emptyDB "ABC" "2024-01-01" "2024-01-03" "day" 1
      (.ok [bar1, bar2, bar3])).aggregates = [bar1, bar2, bar3].map (mkAggRow "ABC" "day" 1) ∧
    (collect_aggregates emptyDB "ABC" "2024-01-01" "2024-01-03" "day" 1
      (.ok [bar1, bar2, bar3])).aggregates.length = 3 :=
  (claim_C3_maps_each_record emptyDB "ABC" "2024-01-01" "2024-01-03" "day" 1 [bar1, bar2, bar3]
    (by decide)).2 rfl

/-! ### Claim C4 -/

/-- Claim C4: the news store is append-only — a news row with id `I` already
in the table survives any later `collect_news` unchanged in every column,
even when the response carries an article with the same id, because the save
is an `INSERT OR IGNORE` on the id primary key: the set of rows with id `I`
is exactly what it was before the call. -/
theorem claim_C4_news_append_only (db : DB) (tk : Option String) (lim : Nat)
    (fetched : Except Unit NewsResponse) (r : NewsRow) (i : String)
    (hr : r ∈ db.news) (hi : r.id = some i) :
    r ∈ (collect_news db tk lim fetched).news ∧
    (collect_news db tk lim fetched).news.filter (fun x => decide (x.id = some i)) =
      db.news.filter (fun x => decide (x.id = some i)) := by
  have hnews : ∃ s, (collect_news db tk lim fetched).news = db.news ++ s ∧
      ∀ x ∈ s, ∀ y ∈ db.news, newsConflict y x = false := by
    rcases fetched with _ | resp
    · exact ⟨[], by simp [collect_news], by simp⟩
    · by_cases h200 : resp.status_code = 200
      · by_cases hemp : (resp.results.map mkNewsRow).isEmpty
        · exact ⟨[], by simp [collect_news, h200, hemp], by simp⟩
        · obtain ⟨s, hs, hf⟩ := insertIgnoreAll_append (resp.results.map mkNewsRow) db.news
          refine ⟨s, ?_, hf⟩
          simp only [collect_news, h200, if_true, hemp, Bool.false_eq_true, if_false, _save_news]
          exact hs
      · exact ⟨[], by simp [collect_news, h200], by simp⟩
  obtain ⟨s, hs, hf⟩ := hnews
  constructor
  · rw [hs]
    exact List.mem_append_left _ hr
  · rw [hs, List.filter_append]
    have hzero : s.filter (fun x => decide (x.id = some i)) = [] := by
      rw [List.filter_eq_nil_iff]
      intro x hx hxi
      have hxid : x.id = some i := of_decide_eq_true hxi
      have hconf := hf x hx r hr
      simp [newsConflict, hi, hxid] at hconf
    rw [hzero, List.append_nil]

theorem claim_C4_witness :
    mkNewsRow article1 ∈ (collect_news dbNews none 1000 (.ok ⟨200, [article1b]⟩)).news ∧
    (collect_news dbNews none 1000 (.ok ⟨200, [article1b]⟩)).news.filter
        (fun x => decide (x.id = some "news-1")) =
      dbNews.news.filter (fun x => decide (x.id = some "news-1")) :=
  claim_C4_news_append_only dbNews none 1000 (.ok ⟨200, [article1b]⟩) (mkNewsRow article1)
    "news-1" (by simp [dbNews]) rfl

/-! ### Claim C10 -/

/-- Claim C10: calling `collect_snapshots` with a non-empty tickers list is a
no-op — no vendor call is made (empty call trace) and the database is
returned untouched; snapshot rows can only ever be written by a call with no
tickers (`none` or `[]`), and then only rows derived from response records
that have a `day` field, while an exception leaves the tables unchanged. -/
theorem claim_C10_snapshots_noop (db : DB) (now : ℚ)
    (fetched : Except Unit (List TickerSnapshot)) :
    (∀ ts : List String, ts ≠ [] → collect_snapshots db now (some ts) fetched = (db, [])) ∧
    (∀ tks : Option (List String), (collect_snapshots db now tks (.error ())).1 = db) ∧
    (∀ (tks : Option (List String)) (response : List TickerSnapshot) (row : SnapshotRow),
      row ∈ (collect_snapshots db now tks (.ok response)).1.snapshots →
      row ∈ db.snapshots ∨
        ∃ td ∈ response, ∃ d, td.day = some d ∧ row = mkSnapshotRow now td d) := by
  refine ⟨?_, ?_, ?_⟩
  · intro ts hts
    cases ts with
    | nil => exact absurd rfl hts
    | cons a l => rfl
  · intro tks
    cases tks with
    | none => rfl
    | some l => cases l with
      | nil => rfl
      | cons a l => rfl
  · intro tks response row hrow
    have hbranch : (collect_snapshots db now tks (.ok response)).1 = db ∨
        (collect_snapshots db now tks (.ok response)).1 =
          (if (response.filterMap (fun td => td.day.map (mkSnapshotRow now td))).isEmpty then db
           else _save_snapshots db
             (response.filterMap (fun td => td.day.map (mkSnapshotRow now td)))) := by
      cases tks with
      | none => exact Or.inr rfl
      | some l => cases l with
        | nil => exact Or.inr rfl
        | cons a l => exact Or.inl rfl
    rcases hbranch with hb | hb
    · rw [hb] at hrow
      exact Or.inl hrow
    · rw [hb] at hrow
      by_cases hemp : (response.filterMap (fun td => td.day.map (mkSnapshotRow now td))).isEmpty
      · rw [if_pos hemp] at hrow
        exact Or.inl hrow
      · rw [if_neg hemp] at hrow
        rcases mem_upsertAllC _ _ _ hrow with h' | h'
        · exact Or.inl h'
        · right
          rcases List.mem_filterMap.1 h' with ⟨td, htd, hmap⟩
          rcases Option.map_eq_some'.1 hmap with ⟨d, hd, hrow'⟩
          exact ⟨td, htd, d, hd, hrow'.symm⟩

theorem claim_C10_witness :
    collect_snapshots emptyDB 0 (some ["AAPL"]) (.ok [snapTD1]) = (emptyDB, []) :=
  (claim_C10_snapshots_noop emptyDB 0 (.ok [snapTD1])).1 ["AAPL"] (by decide)

/-! ### Claim C6 -/

/-- Claim C6 counterexample: one run over `oracleC6` leaves a table that
violates every part of the claim that needed amending.  (a) The primary key
is the triple `(ticker, timestamp, indicator_type)`, so the sma and ema
values saved at the same timestamp give two rows for the same `(ticker,
timestamp)` pair — the at-most-one-row-per-pair reading fails.  (b) The code
stores whatever `signal`/`histogram` fields the response carries for every
kind, so the sma value carrying a signal yields an sma row with a non-NULL
`signal_value` — the unconditional NULL-columns reading fails.  (c) The two
sma values without timestamps both insert (NULL never conflicts), leaving
two rows with the same `(ticker, NULL, sma)` triple — even triple-uniqueness
only holds among rows whose timestamp is present. -/
theorem claim_C6_counterexample :
    ¬ specIndicatorPairInvariant
      ((collect_technical_indicators emptyDB "key" "ABC" "2024-01-01" "2024-01-31"
        oracleC6).1.technical_indicators) ∧
    ¬ ((collect_technical_indicators emptyDB "key" "ABC" "2024-01-01" "2024-01-31"
        oracleC6).1.technical_indicators.map (fun r => (r.ticker, r.timestamp))).Nodup ∧
    (∃ r ∈ (collect_technical_indicators emptyDB "key" "ABC" "2024-01-01" "2024-01-31"
        oracleC6).1.technical_indicators,
      r.indicator_type = "sma" ∧ r.signal_value ≠ none) ∧
    ((collect_technical_indicators emptyDB "key" "ABC" "2024-01-01" "2024-01-31"
        oracleC6).1.technical_indicators.filter
          (fun r => decide (indKey r = ("ABC", (none : Option Int), "sma")))).length = 2 := by
  decide

theorem indConflict_h1 :
    ∀ x r : IndicatorRow, r.timestamp.isSome = false → indConflict x r = false := by
  intro x r hr
  rcases ht : r.timestamp with _ | i
  · exact indConflict_none x r ht
  · rw [ht] at hr
    cases hr

theorem indConflict_h2 :
    ∀ x r : IndicatorRow, r.timestamp.isSome = true →
      indConflict x r = decide (indKey x = indKey r) := by
  intro x r hr
  apply indConflict_eq_key
  rcases ht : r.timestamp with _ | i
  · rw [ht] at hr
    cases hr
  · exact Option.some_ne_none i

theorem indicator_step_invariant (k tkr fd td : String)
    (oracle : String → Except Unit IndResponse) (acc : DB × List IndRequest) (ind : String)
    (hind : ind = "sma" ∨ ind = "ema" ∨ ind = "rsi" ∨ ind = "macd")
    (hval : ind ≠ "macd" → valuesOk (oracle ind) = true)
    (h : indicatorInvariant acc.1.technical_indicators) :
    indicatorInvariant (indicator_step k tkr fd td oracle acc ind).1.technical_indicators := by
  rcases ho : oracle ind with _ | ⟨sc, res⟩
  · unfold indicator_step
    rw [ho]
    exact h
  · unfold indicator_step
    rw [ho]
    dsimp only
    by_cases h200 : sc = 200
    · rw [if_pos h200]
      rcases res with _ | ⟨vals⟩
      · exact h
      · rcases vals with _ | vs
        · exact h
        · show indicatorInvariant (_save_indicators acc.1 tkr ind vs).technical_indicators
          constructor
          · intro r hr
            rcases mem_upsertAllC _ _ _ hr with hmem | hmem
            · exact h.1 r hmem
            · rcases List.mem_map.1 hmem with ⟨v, hv, rfl⟩
              refine ⟨hind, ?_⟩
              intro hne
              have hvo := hval hne
              rw [ho] at hvo
              simp only [valuesOk, List.all_eq_true, Bool.and_eq_true, beq_iff_eq] at hvo
              exact hvo v hv
          · show ((((upsertAllC indConflict acc.1.technical_indicators
                (vs.map (mkIndicatorRow tkr ind)))).filter
                  (fun r => r.timestamp.isSome)).map indKey).Nodup
            rw [filter_upsertAllC indConflict indKey (fun r => r.timestamp.isSome)
              indConflict_h1 indConflict_h2]
            exact nodup_upsertAll _ _ h.2
    · rw [if_neg h200]
      exact h

/-- Claim C6 as amended: every row of the `technical_indicators` table has
`indicator_type` exactly one of sma, ema, rsi, macd, and at most one row
exists per `(ticker, timestamp, indicator_type)` triple (the declared
primary key) among the rows whose timestamp is present — NULL-timestamp rows
never conflict and may duplicate; non-macd rows store NULL in
`signal_value`/`histogram_value` provided the sma/ema/rsi responses carry no
signal/histogram fields (the code copies whatever the response contains),
while macd rows may carry them. -/
theorem claim_C6_indicator_invariant (db : DB) (k tkr fd td : String)
    (oracle : String → Except Unit IndResponse)
    (hdb : indicatorInvariant db.technical_indicators)
    (hok : ∀ ind ∈ (["sma", "ema", "rsi"] : List String), valuesOk (oracle ind) = true) :
    indicatorInvariant
      ((collect_technical_indicators db k tkr fd td oracle).1.technical_indicators) := by
  have h1 := indicator_step_invariant k tkr fd td oracle (db, []) "sma" (Or.inl rfl)
    (fun _ => hok "sma" (by simp)) hdb
  have h2 := indicator_step_invariant k tkr fd td oracle _ "ema" (Or.inr (Or.inl rfl))
    (fun _ => hok "ema" (by simp)) h1
  have h3 := indicator_step_invariant k tkr fd td oracle _ "rsi" (Or.inr (Or.inr (Or.inl rfl)))
    (fun _ => hok "rsi" (by simp)) h2
  have h4 := indicator_step_invariant k tkr fd td oracle _ "macd"
    (Or.inr (Or.inr (Or.inr rfl))) (fun hne => absurd rfl hne) h3
  exact h4

theorem claim_C6_witness :
    indicatorInvariant
      ((collect_technical_indicators emptyDB "key" "ABC" "2024-01-01" "2024-01-31"
        oracleC2).1.technical_indicators) :=
  claim_C6_indicator_invariant emptyDB "key" "ABC" "2024-01-01" "2024-01-31" oracleC2
    (by decide) (by decide)

/-! ### Claim C8 -/

theorem ticker_loop_step_trace (o : Oracle) (k sd ed : String) (acc : DB × List Op)
    (a : String) :
    (ticker_loop_step o k sd ed acc a).2 = acc.2 ++
      [Op.aggregates a sd ed "day" 1, Op.aggregates a sd ed "hour" 1,
       Op.aggregates a sd ed "minute" 5, Op.technical_indicators a sd ed,
       Op.news (some a) 50, Op.sleep (1 / 10)] := rfl

theorem ticker_loop_trace (o : Oracle) (k sd ed : String) (ts : List String) :
    ∀ acc : DB × List Op,
      (ts.foldl (ticker_loop_step o k sd ed) acc).2 =
        acc.2 ++ ts.flatMap (fun t =>
          [Op.aggregates t sd ed "day" 1, Op.aggregates t sd ed "hour" 1,
           Op.aggregates t sd ed "minute" 5, Op.technical_indicators t sd ed,
           Op.news (some t) 50, Op.sleep (1 / 10)]) := by
  induction ts with
  | nil =>
    intro acc
    simp
  | cons a l ih =>
    intro acc
    rw [List.foldl_cons, ih]
    have hstep : (ticker_loop_step o k sd ed acc a).2 = acc.2 ++
        [Op.aggregates a sd ed "day" 1, Op.aggregates a sd ed "hour" 1,
         Op.aggregates a sd ed "minute" 5, Op.technical_indicators a sd ed,
         Op.news (some a) 50, Op.sleep (1 / 10)] := rfl
    rw [hstep]
    simp

/-- Claim C8: `run_complete_collection` performs a fixed sequence — with an
explicit non-empty ticker list it collects holidays, snapshots, news,
dividends and splits once each and then, per ticker in order, three
aggregate resolutions (day/1, hour/1, minute/5), the technical indicators,
ticker-scoped news with limit 50 and a 0.1-second sleep; with no ticker list
it first fetches all tickers, keeps only the first 100, and proceeds with
the same sequence over those. -/
theorem claim_C8_driver_sequence (db : DB) (o : Oracle) (k sd ed : String) :
    (∀ ts : List String, ts ≠ [] →
      (run_complete_collection db o k sd ed (some ts)).2 =
        [Op.market_holidays, Op.snapshots, Op.news none 1000, Op.dividends none,
         Op.splits none] ++
          ts.flatMap (fun t =>
            [Op.aggregates t sd ed "day" 1, Op.aggregates t sd ed "hour" 1,
             Op.aggregates t sd ed "minute" 5, Op.technical_indicators t sd ed,
             Op.news (some t) 50, Op.sleep (1 / 10)])) ∧
    ((run_complete_collection db o k sd ed none).2 =
      Op.all_tickers ::
        ([Op.market_holidays, Op.snapshots, Op.news none 1000, Op.dividends none,
          Op.splits none] ++
          (((collect_all_tickers db o.all_tickers).2.take 100).map TickerRow.ticker).flatMap
            (fun t =>
              [Op.aggregates t sd ed "day" 1, Op.aggregates t sd ed "hour" 1,
               Op.aggregates t sd ed "minute" 5, Op.technical_indicators t sd ed,
               Op.news (some t) 50, Op.sleep (1 / 10)]))) := by
  constructor
  · intro ts hts
    cases ts with
    | nil => exact absurd rfl hts
    | cons a l =>
      simp [run_complete_collection, ticker_loop_trace, ticker_loop_step_trace]
  · simp [run_complete_collection, ticker_loop_trace, ticker_loop_step_trace]

theorem claim_C8_witness :
    (run_complete_collection emptyDB oracle0 "key" "2024-01-01" "2024-01-31"
      (some ["AAPL"])).2 =
      [Op.market_holidays, Op.snapshots, Op.news none 1000, Op.dividends none,
       Op.splits none] ++
        ["AAPL"].flatMap (fun t =>
          [Op.aggregates t "2024-01-01" "2024-01-31" "day" 1,
           Op.aggregates t "2024-01-01" "2024-01-31" "hour" 1,
           Op.aggregates t "2024-01-01" "2024-01-31" "minute" 5,
           Op.technical_indicators t "2024-01-01" "2024-01-31",
           Op.news (some t) 50, Op.sleep (1 / 10)]) :=
  (claim_C8_driver_sequence emptyDB oracle0 "key" "2024-01-01" "2024-01-31").1 ["AAPL"]
    (by decide)

end Polygon
